import Mathlib

/-!
Shallow embedding of the howler.js audio engine core (src/src/Howl.js,
src/src/Sound.js, src/src/HowlerGlobal.js).

Modelling conventions:
* JS numbers are modelled as `Rat` (all claims here concern control flow and
  exact field updates, not float rounding).
* A numeric field that the source leaves `undefined` until first use is
  modelled as `0`; every read of such a field in the source goes through
  `x || 0` coalescing, which agrees with this choice.
* The DOM / Web Audio node graph is not state we can execute, so calls into
  it are recorded as an ordered `Effect` list (node starts, buffer refreshes,
  scheduled emissions, ...). Event emissions (`Howl._emit`) are recorded as
  effects as well, and their interaction with the pending-action queue
  (`Howl._loadQueue`) is modelled exactly; the deferred listener callbacks
  themselves are opaque.
-/

namespace HowlerModel

/-- Event-name constants from src/src/HowlerGlobal.js. -/
def LOADED : String := "loaded"

def LOADING : String := "loading"

def UNLOADED : String := "unloaded"

def PLAY : String := "play"

def ENDEV : String := "end"

def VOLUME : String := "volume"

def FADE : String := "fade"

def RATE : String := "rate"

def SEEK : String := "seek"

def DEFAULT : String := "__default"

/-- The deferred call stored in a queue record (the `action` closure of a
`Howl._queue` entry); kept symbolic since the model does not execute
closures. -/
inductive QAction where
  | play (id : Nat)
  | pause (id : Option Nat)
  | stop (id : Option Nat)
  | mute (m : Bool) (id : Option Nat)
  | volume (v : Option Rat) (id : Option Nat)
  | fade (vFrom vTo len : Rat) (id : Option Nat)
  | rate (r : Option Rat) (id : Option Nat)
  | seek (v : Option Rat) (id : Option Nat)
  deriving Repr, DecidableEq

/-- One record of `Howl._queue`: an event tag plus the deferred action. -/
structure Task where
  event : String
  act : QAction
  deriving Repr, DecidableEq

/-- `Howl._loadQueue(event)` (src/src/Howl.js lines 1856-1873), returning the
new queue together with the list of queue records whose `action()` was
invoked.  With a matching event the head is shifted and `_loadQueue()` is
re-entered with no event; with no event the head's action is invoked and the
head stays queued (it is removed later, when its own completion event
fires). -/
def loadQueue : Option String → List Task → List Task × List Task
  | none, [] => ([], [])
  | none, t :: ts => (t :: ts, [t])
  | some _, [] => ([], [])
  | some e, t :: ts => if t.event = e then loadQueue none ts else (t :: ts, [])

/-- One playback voice: the runtime state of a `Sound` object
(src/src/Sound.js).  Node-graph handles are not state; unset numeric fields
(`_start`, `_stop`, `_playStart`, `_rateSeek` before first use) are modelled
as `0` (see file header). `_nodeCurrentTime` models the HTML5 element's
`currentTime`. -/
structure Sound where
  _id : Nat
  _paused : Bool
  _ended : Bool
  _sprite : String
  _seek : Rat
  _rateSeek : Rat
  _start : Rat
  _stop : Rat
  _playStart : Rat
  _loop : Bool
  _muted : Bool
  _volume : Rat
  _rate : Rat
  _interval : Bool
  _fadeTo : Option Rat
  _nodeCurrentTime : Rat
  _hasBufferSource : Bool
  deriving Repr, DecidableEq

/-- A sprite definition `[offsetMs, durationMs, loop?]` from the
`Howl._sprite` map. -/
structure SpriteDef where
  offsetMs : Rat
  durationMs : Rat
  loopFlag : Bool
  deriving Repr, DecidableEq

/-- The state of one `Howl` group (src/src/Howl.js `init`): configuration
defaults, lifecycle state, the voice pool, the armed end timers
(`_endTimers`, keyed by sound id; `some t` is a `setTimeout` for `t`
milliseconds, `none` is a native ended-listener entry) and the pending-action
queue. -/
structure Howl where
  _state : String
  _playLock : Bool
  _webAudio : Bool
  _sounds : List Sound
  _sprite : List (String × SpriteDef)
  _queue : List Task
  _endTimers : List (Nat × Option Rat)
  _volume : Rat
  _rate : Rat
  _loop : Bool
  _muted : Bool
  _pool : Nat
  deriving Repr, DecidableEq

/-- The slice of the global `HowlerGlobal` singleton and environment the
modelled operations read: the voice-id counter, the backend clock, whether
the audio context is running (`Howler.state === RUNNING` and not
interrupted), whether the HTML5 node is ready (`readyState >= 3`), and
whether `node.play()` returns a promise. -/
structure HowlerState where
  counter : Nat
  ctxTime : Rat
  ctxRunning : Bool
  nodeReady : Bool
  promiseSupported : Bool
  deriving Repr, DecidableEq

/-- Calls into the audio backend / DOM and notification emissions, recorded
in program order instead of being executed. -/
inductive Effect where
  | emit (event : String) (id : Option Nat)
  | invoke (t : Task)
  | refreshBuffer (id : Nat)
  | setGain (id : Nat) (v : Rat)
  | startNode (id : Nat) (seekPos dur : Rat)
  | stopNode (id : Nat)
  | cleanBuffer (id : Nat)
  | nodePause (id : Nat)
  | clearSound (id : Nat)
  | autoResume
  | autoSuspend
  | onceResume (id : Nat)
  | canPlayWait (id : Nat)
  | playPromisePending (id : Nat)
  | scheduleEmitPlay (id : Nat)
  | html5LoopReplay (id : Nat)
  | nodePlay (id : Nat)
  | setNodeVolume (id : Nat) (v : Rat)
  | seekEmitDeferred (id : Nat)
  deriving Repr, DecidableEq

/-- `Howl._soundById` (lines 1960-1969): first pool entry with this id, else
null. -/
def soundById (h : Howl) (id : Nat) : Option Sound :=
  h._sounds.find? (fun s => s._id = id)

/-- In-place mutation of the pool sound with the given id. -/
def updateSound (sounds : List Sound) (id : Nat) (f : Sound → Sound) : List Sound :=
  sounds.map (fun s => if s._id = id then f s else s)

/-- `Howl._getSoundIds` (lines 2033-2044). -/
def getSoundIds (h : Howl) (id : Option Nat) : List Nat :=
  match id with
  | none => h._sounds.map (fun s => s._id)
  | some i => [i]

/-- `Howl._clearTimer` (lines 1937-1953): drop the end-timer entry for this
id (clearing the timeout / removing the ended listener is a no-op on modelled
state). -/
def clearTimer (h : Howl) (id : Nat) : Howl :=
  { h with _endTimers := h._endTimers.filter (fun p => p.1 ≠ id) }

/-- Overwrite `this._endTimers[id]` with a new armed timer. -/
def setTimer (h : Howl) (id : Nat) (v : Option Rat) : Howl :=
  { h with _endTimers := (id, v) :: h._endTimers.filter (fun p => p.1 ≠ id) }

/-- `Howl.playing` (lines 1629-1644). -/
def playing (h : Howl) (id : Option Nat) : Bool :=
  match id with
  | some n =>
      match soundById h n with
      | some s => !s._paused
      | none => false
  | none => h._sounds.any (fun s => !s._paused)

/-- The read branch of `Howl.seek` (lines 1610-1618): computed playback
position for Web Audio, else the element's native position. -/
def seekReadValue (h : Howl) (s : Sound) (ctxTime : Rat) : Rat :=
  if h._webAudio then
    let realTime : Rat := if playing h (some s._id) then ctxTime - s._playStart else 0
    let rateSeek : Rat := if s._rateSeek ≠ 0 then s._rateSeek - s._seek else 0
    s._seek + (rateSeek + realTime * |s._rate|)
  else s._nodeCurrentTime

/-- A `this._loadQueue(event)` call with an event tag: pop the head on a
match and advance. -/
def loadQueueEvent (h : Howl) (e : String) : Howl × List Effect :=
  let r := loadQueue (some e) h._queue
  ({ h with _queue := r.1 }, r.2.map Effect.invoke)

/-- `Howl._emit` (lines 1824-1848): record the notification (listener
callbacks are deferred and opaque) and pass the event into `_loadQueue` so
the pending-action queue keeps stepping. -/
def emitStep (h : Howl) (event : String) (id : Option Nat) : Howl × List Effect :=
  let r := loadQueueEvent h event
  (r.1, Effect.emit event id :: r.2)

/-- An explicit no-event `this._loadQueue()` call: the head action is invoked
but stays queued. -/
def queueAdvance (h : Howl) : Howl × List Effect :=
  let r := loadQueue none h._queue
  ({ h with _queue := r.1 }, r.2.map Effect.invoke)

/-- The voice-field write `_stopFade` performs when a fade was active:
clear the interval, land the volume on the fade target, drop the target. -/
def clearFadeUpd (s0 : Sound) : Sound :=
  { s0 with _interval := false
            _volume := s0._fadeTo.getD s0._volume
            _fadeTo := none }

/-- The voice-field write `stop` performs (lines 653-656): rewind the seek
to the recorded sprite start, reset the rate baseline, mark paused+ended. -/
def stopUpd (s0 : Sound) : Sound :=
  { s0 with _seek := s0._start, _rateSeek := 0, _paused := true, _ended := true }

/-- The voice-field write `pause` performs (lines 590-594), with `v` the
captured playback position. -/
def pauseUpd (v : Rat) (s0 : Sound) : Sound :=
  { s0 with _seek := v, _rateSeek := 0, _paused := true }

/-- Detach the buffer source bookkeeping after a node stop. -/
def dropBufUpd (s0 : Sound) : Sound :=
  { s0 with _hasBufferSource := false }

/-- HTML5 stop also rewinds the element to the sprite start. -/
def rewindNodeUpd (s0 : Sound) : Sound :=
  { s0 with _nodeCurrentTime := s0._start }

/-- `Howl._stopFade` (lines 1351-1367).  When a fade interval is active the
source clears it, applies `this.volume(fadeTo, id)` (which writes that
sound's volume and emits a volume notification) and emits a fade
notification; that single-sound volume write is inlined here. -/
def stopFade (h : Howl) (id : Nat) : Howl × List Effect :=
  match soundById h id with
  | some s =>
      if s._interval then
        let h1 := { h with _sounds := updateSound h._sounds id clearFadeUpd }
        let r1 := emitStep h1 VOLUME (some id)
        let r2 := emitStep r1.1 FADE (some id)
        (r2.1, r1.2 ++ r2.2)
      else (h, [])
  | none => (h, [])

/-- `Howl._drain`'s removal loop (lines 2010-2025), processing the pool in
reverse: stop as soon as the inactive count is within the limit, otherwise
splice out ended sounds. -/
def drainLoop : List Sound → Nat → Nat → List Sound
  | [], _, _ => []
  | s :: rest, cnt, limit =>
      if cnt ≤ limit then s :: rest
      else if s._ended then drainLoop rest (cnt - 1) limit
      else s :: drainLoop rest cnt limit

/-- `Howl._drain` (lines 1992-2026). -/
def drain (h : Howl) : Howl :=
  let limit := h._pool
  if h._sounds.length < limit then h
  else
    let cnt := h._sounds.countP (fun s => s._ended)
    { h with _sounds := (drainLoop h._sounds.reverse cnt limit).reverse }

/-- `Sound.init` / `Sound.create` field setup for a fresh voice
(src/src/Sound.js lines 17-53): defaults copied from the parent group and a
fresh id drawn from the global counter (`this._id = ++Howler._counter`). -/
def mkSound (h : Howl) (counter : Nat) : Sound × Nat :=
  ({ _id := counter + 1
     _paused := true
     _ended := true
     _sprite := DEFAULT
     _seek := 0
     _rateSeek := 0
     _start := 0
     _stop := 0
     _playStart := 0
     _loop := h._loop
     _muted := h._muted
     _volume := h._volume
     _rate := h._rate
     _interval := false
     _fadeTo := none
     _nodeCurrentTime := 0
     _hasBufferSource := false }, counter + 1)

/-- `Sound.reset` (src/src/Sound.js lines 104-140): re-initialize a recycled
voice from the parent's defaults and issue a fresh id
(`this._id = ++Howler._counter`).  Fields the source does not touch
(`_start`, `_stop`, `_playStart`, `_interval`, ...) are kept. -/
def resetSound (h : Howl) (s : Sound) (counter : Nat) : Sound × Nat :=
  ({ s with
      _id := counter + 1
      _muted := h._muted
      _loop := h._loop
      _volume := h._volume
      _rate := h._rate
      _seek := 0
      _rateSeek := 0
      _paused := true
      _ended := true
      _sprite := DEFAULT }, counter + 1)

/-- `Howl._inactiveSound` (lines 1975-1987): drain the pool, recycle the
first ended voice in place, else append a new one.  Returns the updated
group, the updated global counter and the id of the obtained voice. -/
def inactiveSound (h : Howl) (counter : Nat) : Howl × Nat × Nat :=
  let h1 := drain h
  match h1._sounds.find? (fun s => s._ended) with
  | some s =>
      let r := resetSound h1 s counter
      ({ h1 with _sounds := updateSound h1._sounds s._id (fun _ => r.1) }, r.2, r.1._id)
  | none =>
      let r := mkSound h1 counter
      ({ h1 with _sounds := h1._sounds ++ [r.1] }, r.2, r.1._id)

/-- One iteration of `Howl.pause`'s loop (lines 581-622) for sound id `i`:
clear the timer; if the sound exists and is not paused, store the computed
position as its seek, reset the rate baseline, mark it paused, stop any fade
and stop its backend node (in Web Audio mode a missing buffer source skips
the rest of the iteration, including the notification); finally emit a pause
notification unless the internal flag is set. -/
def pauseOne (h : Howl) (i : Nat) (internal : Bool) (now : Rat) : Howl × List Effect :=
  let h1 := clearTimer h i
  match soundById h1 i with
  | some s =>
      if !s._paused then
        let newSeek := seekReadValue h1 s now
        let h2 := { h1 with _sounds := updateSound h1._sounds i (pauseUpd newSeek) }
        let r3 := stopFade h2 i
        if h1._webAudio then
          if s._hasBufferSource then
            let h4 := { r3.1 with _sounds := updateSound r3.1._sounds i dropBufUpd }
            let r5 := if !internal then emitStep h4 "pause" (some s._id) else (h4, [])
            (r5.1, r3.2 ++ [Effect.stopNode i, Effect.cleanBuffer i] ++ r5.2)
          else
            (r3.1, r3.2)
        else
          let r5 := if !internal then emitStep r3.1 "pause" (some s._id) else (r3.1, [])
          (r5.1, r3.2 ++ [Effect.nodePause i] ++ r5.2)
      else
        if !internal then emitStep h1 "pause" (some s._id) else (h1, [])
  | none =>
      if !internal then emitStep h1 "pause" none else (h1, [])

/-- The pause loop over a list of sound ids. -/
def pauseList (internal : Bool) (now : Rat) : Howl → List Nat → Howl × List Effect
  | h, [] => (h, [])
  | h, i :: is =>
      let r := pauseOne h i internal now
      let r2 := pauseList internal now r.1 is
      (r2.1, r.2 ++ r2.2)

/-- `Howl.pause` (lines 567-625): defer when not loaded or the play lock is
held, else pause the targeted voice(s). -/
def pause (h : Howl) (id : Option Nat) (internal : Bool) (now : Rat) : Howl × List Effect :=
  if h._state ≠ LOADED ∨ h._playLock then
    ({ h with _queue := h._queue ++ [⟨"pause", QAction.pause id⟩] }, [])
  else
    pauseList internal now h (getSoundIds h id)

/-- One iteration of `Howl.stop`'s loop (lines 647-692) for sound id `i`:
clear the timer; if the sound exists, rewind its seek to the recorded sprite
start, mark it paused and ended, stop any fade, stop/detach the backend node
(HTML5: rewind the element and pause it) and emit a stop notification unless
the internal flag is set. -/
def stopOne (h : Howl) (i : Nat) (internal : Bool) : Howl × List Effect :=
  let h1 := clearTimer h i
  match soundById h1 i with
  | some s =>
      let h2 := { h1 with _sounds := updateSound h1._sounds i stopUpd }
      let r3 := stopFade h2 i
      let r4 : Howl × List Effect :=
        if h1._webAudio then
          if s._hasBufferSource then
            ({ r3.1 with _sounds := updateSound r3.1._sounds i dropBufUpd },
             r3.2 ++ [Effect.stopNode i, Effect.cleanBuffer i])
          else (r3.1, r3.2)
        else
          ({ r3.1 with _sounds := updateSound r3.1._sounds i rewindNodeUpd },
           r3.2 ++ [Effect.nodePause i])
      let r5 := if !internal then emitStep r4.1 "stop" (some s._id) else (r4.1, [])
      (r5.1, r4.2 ++ r5.2)
  | none => (h1, [])

/-- The stop loop over a list of sound ids. -/
def stopList (internal : Bool) : Howl → List Nat → Howl × List Effect
  | h, [] => (h, [])
  | h, i :: is =>
      let r := stopOne h i internal
      let r2 := stopList internal r.1 is
      (r2.1, r.2 ++ r2.2)

/-- `Howl.stop` (lines 633-695): defer when not loaded or the play lock is
held, else stop the targeted voice(s). -/
def stop (h : Howl) (id : Option Nat) (internal : Bool) : Howl × List Effect :=
  if h._state ≠ LOADED ∨ h._playLock then
    ({ h with _queue := h._queue ++ [⟨"stop", QAction.stop id⟩] }, [])
  else
    stopList internal h (getSoundIds h id)

/-- `Howl._ended` (lines 1880-1930).  The effective loop flag is the voice
override OR the sprite's loop flag (a sprite name missing from the map, on
which the source would throw, contributes `false`).  Emits the end
notification; an HTML5 loop issues an internal stop and replays
(`this.stop(id, true).play(id)` — the replay is recorded as an effect to
keep the model non-recursive); a Web Audio loop emits a synthetic play
notification, rewinds the voice, re-anchors the start timestamp and re-arms
the cycle timer; a non-looping Web Audio end parks the voice; a non-looping
HTML5 end issues an internal stop. -/
def endedStep (h : Howl) (sid : Nat) (now : Rat) : Howl × List Effect :=
  match soundById h sid with
  | none => (h, [])
  | some s =>
      let loopB := s._loop || (match h._sprite.lookup s._sprite with
        | some d => d.loopFlag
        | none => false)
      let r1 := emitStep h ENDEV (some sid)
      let h1 := r1.1
      if !h._webAudio && loopB then
        let r2 := stop h1 (some sid) true
        (r2.1, r1.2 ++ r2.2 ++ [Effect.html5LoopReplay sid])
      else if h._webAudio && loopB then
        let r2 := emitStep h1 PLAY (some sid)
        let h2 := { r2.1 with _sounds := updateSound r2.1._sounds sid (fun s0 =>
          { s0 with _seek := s0._start, _rateSeek := 0, _playStart := now }) }
        let timeout := ((s._stop - s._start) * 1000) / |s._rate|
        (setTimer h2 sid (some timeout), r1.2 ++ r2.2)
      else if h._webAudio then
        let h2 := { h1 with _sounds := updateSound h1._sounds sid (fun s0 =>
          { s0 with _paused := true, _ended := true, _seek := s0._start, _rateSeek := 0,
                    _hasBufferSource := false }) }
        let h3 := clearTimer h2 sid
        (h3, r1.2 ++ [Effect.cleanBuffer sid, Effect.autoSuspend])
      else
        let r2 := stop h1 (some sid) true
        (r2.1, r1.2 ++ r2.2)

/-- The argument passed to `Howl.play`: a sound id, a sprite name or
nothing. -/
inductive PlayArg where
  | byId (n : Nat)
  | bySprite (sp : String)
  | noArg
  deriving Repr, DecidableEq

/-- The value `Howl.play` returns: `null`, a sound id, or `this` (the
`return this._ended(sound)` path). -/
inductive PlayRet where
  | nullRet
  | idRet (n : Nat)
  | selfRet
  deriving Repr, DecidableEq

/-- Result of a `play` call: the new group state, the new global state, the
return value and the recorded backend effects. -/
structure PlayOut where
  howl : Howl
  hs : HowlerState
  ret : PlayRet
  fx : List Effect
  deriving Repr, DecidableEq

/-- The no-argument resolution step of `Howl.play` (lines 308-328): when no
play lock is held and exactly one pool voice is paused but not ended, select
that voice's id (the loop keeps the last match) and drop the sprite
selection; otherwise keep the default sprite with no id. -/
def playSelect (h : Howl) : Option Nat × Option String :=
  if !h._playLock then
    let ms := h._sounds.filter (fun s => s._paused && !s._ended)
    if ms.length = 1 then (ms.getLast?.map (fun s => s._id), none)
    else (none, some DEFAULT)
  else (none, some DEFAULT)

/-- The `setParams` closure of `Howl.play` (lines 392-398) applied to the
voice with id `sid`. -/
def setParamsUpd (sid : Nat) (seekPos startPos stopPos : Rat) (lp : Bool)
    (hx : Howl) : Howl :=
  { hx with _sounds := updateSound hx._sounds sid (fun s0 =>
    { s0 with _paused := false, _seek := seekPos, _start := startPos,
              _stop := stopPos, _loop := (s0._loop || lp) }) }

/-- The Web Audio playback branch of `Howl.play` (lines 407-456): play
immediately while the context is running, else take the play lock and wait
for a resume. -/
def playWebAudio (h1 : Howl) (hs : HowlerState) (s : Sound) (d : SpriteDef)
    (seekPos duration timeout startPos stopPos : Rat) (internal : Bool) : PlayOut :=
  let loopNow := s._loop || d.loopFlag
  if hs.ctxRunning then
    let h2 := setParamsUpd s._id seekPos startPos stopPos d.loopFlag
      { h1 with _playLock := false }
    let vol : Rat := if s._muted || h1._muted then 0 else s._volume
    let h3 := { h2 with _sounds := updateSound h2._sounds s._id (fun s0 =>
      { s0 with _playStart := hs.ctxTime, _hasBufferSource := true }) }
    -- `timeout === Infinity` exactly when the rate is 0 (duration > 0 here)
    let h4 := if s._rate ≠ 0 then setTimer h3 s._id (some timeout) else h3
    let fxP : List Effect :=
      if !internal then [Effect.scheduleEmitPlay s._id] else []
    ⟨h4, hs, .idRet s._id,
      [Effect.refreshBuffer s._id, Effect.setGain s._id vol,
       Effect.startNode s._id seekPos (if loopNow then 86400 else duration)] ++ fxP⟩
  else
    let h2 := clearTimer { h1 with _playLock := true } s._id
    ⟨h2, hs, .idRet s._id, [Effect.onceResume s._id]⟩

/-- The HTML5 playback branch of `Howl.play` (lines 457-556): play when the
element is ready (promise-lock path or direct path), else take the play lock
and wait for readiness.  The promise's asynchronous resolution is recorded,
not executed. -/
def playHtml5 (h1 : Howl) (hs : HowlerState) (s : Sound) (sprite : String)
    (d : SpriteDef) (seekPos _duration timeout startPos stopPos : Rat)
    (internal : Bool) : PlayOut :=
  let loopNow := s._loop || d.loopFlag
  if hs.nodeReady then
    let h2 := { h1 with _sounds := updateSound h1._sounds s._id (fun s0 =>
      { s0 with _nodeCurrentTime := seekPos }) }
    if hs.promiseSupported then
      let h3 := setParamsUpd s._id seekPos startPos stopPos d.loopFlag
        { h2 with _playLock := true }
      let h4 :=
        if sprite ≠ DEFAULT || loopNow then setTimer h3 s._id (some timeout)
        else setTimer h3 s._id none
      ⟨h4, hs, .idRet s._id,
        [Effect.nodePlay s._id, Effect.playPromisePending s._id]⟩
    else if !internal then
      let h3 := setParamsUpd s._id seekPos startPos stopPos d.loopFlag
        { h2 with _playLock := false }
      let r1 := emitStep h3 PLAY (some s._id)
      let r2 := queueAdvance r1.1
      let h4 :=
        if sprite ≠ DEFAULT || loopNow then setTimer r2.1 s._id (some timeout)
        else setTimer r2.1 s._id none
      ⟨h4, hs, .idRet s._id, [Effect.nodePlay s._id] ++ r1.2 ++ r2.2⟩
    else
      -- internal call without promise support: `setParams` is skipped, so
      -- the timer condition reads the voice's old loop flag
      let h4 :=
        if sprite ≠ DEFAULT || s._loop then setTimer h2 s._id (some timeout)
        else setTimer h2 s._id none
      ⟨h4, hs, .idRet s._id, [Effect.nodePlay s._id]⟩
  else
    let h2 := clearTimer { h1 with _playLock := true } s._id
    ⟨h2, hs, .idRet s._id, [Effect.canPlayWait s._id]⟩

/-- `Howl.play` lines 380-403 once the group is loaded and the sprite
definition `d` is selected: compute the playback window, write the voice's
sprite and ended flag, dispatch the end transition when the seek is at or
past the sprite end, else branch on the backend mode. -/
def playLoaded (h : Howl) (hs : HowlerState) (s : Sound) (sprite : String)
    (d : SpriteDef) (internal : Bool) : PlayOut :=
  let seekPos := max 0 (if s._seek > 0 then s._seek else d.offsetMs / 1000)
  let duration := max 0 ((d.offsetMs + d.durationMs) / 1000 - seekPos)
  let timeout := duration * 1000 / |s._rate|
  let startPos := d.offsetMs / 1000
  let stopPos := (d.offsetMs + d.durationMs) / 1000
  let h1 := { h with _sounds := updateSound h._sounds s._id (fun s0 =>
    { s0 with _sprite := sprite, _ended := false }) }
  if seekPos ≥ stopPos then
    let r := endedStep h1 s._id hs.ctxTime
    ⟨r.1, hs, .selfRet, r.2⟩
  else if h._webAudio then
    playWebAudio h1 hs s d seekPos duration timeout startPos stopPos internal
  else
    playHtml5 h1 hs s sprite d seekPos duration timeout startPos stopPos internal

/-- `Howl.play` from line 340 on, once a voice `s` has been obtained.
`id?` is the resolved id (`null` on the allocation path); JS truthiness of
`id` is reflected by `id?.isSome`.  A sprite name with no entry in the map
(on which the source would throw at `this._sprite[sprite][0]`) returns
`null`. -/
def playWithSound (h : Howl) (hs : HowlerState) (id? : Option Nat)
    (sprite? : Option String) (s : Sound) (internal : Bool) : PlayOut :=
  let sprite : String :=
    match id?, sprite? with
    | some _, none => if s._sprite = "" then DEFAULT else s._sprite
    | _, some sp => sp
    | none, none => ""
  if h._state ≠ LOADED then
    let h1 := { h with
      _sounds := updateSound h._sounds s._id (fun s0 =>
        { s0 with _sprite := sprite, _ended := false })
      _queue := h._queue ++ [⟨PLAY, QAction.play s._id⟩] }
    ⟨h1, hs, .idRet s._id, []⟩
  else if id?.isSome && !s._paused then
    let r := if !internal then loadQueueEvent h PLAY else (h, [])
    ⟨r.1, hs, .idRet s._id, r.2⟩
  else
    let fx0 : List Effect := if h._webAudio then [Effect.autoResume] else []
    match h._sprite.lookup sprite with
    | none => ⟨h, hs, .nullRet, fx0⟩
    | some d =>
        let r := playLoaded h hs s sprite d internal
        ⟨r.howl, r.hs, r.ret, fx0 ++ r.fx⟩

/-- `Howl.play` (lines 298-560): resolve the argument to a voice id / sprite
pair, fetch the voice by id or obtain one from the pool, then run the main
body. -/
def play (h : Howl) (hs : HowlerState) (arg : PlayArg) (internal : Bool) : PlayOut :=
  let res : Option (Option Nat × Option String) :=
    match arg with
    | .byId n => some (some n, none)
    | .bySprite sp =>
        if h._state = LOADED && (h._sprite.lookup sp).isNone then none
        else some (none, some sp)
    | .noArg => some (playSelect h)
  match res with
  | none => ⟨h, hs, .nullRet, []⟩
  | some (rawId, sprite?) =>
    let id? : Option Nat :=
      match rawId with
      | some n => if n = 0 then none else some n
      | none => none
    match id? with
    | some n =>
        match soundById h n with
        | none => ⟨h, hs, .nullRet, []⟩
        | some s => playWithSound h hs id? sprite? s internal
    | none =>
        let r := inactiveSound h hs.counter
        let hs1 := { hs with counter := r.2.1 }
        match soundById r.1 r.2.2 with
        | none => ⟨r.1, hs1, .nullRet, []⟩
        | some s => playWithSound r.1 hs1 none sprite? s internal

/-- Arguments of `Howl.volume`: none, one, or two.  A one-argument call
carries `some v` for a numeric value and `none` when `parseFloat` yields
`NaN` (non-numeric input). -/
inductive VolArgs where
  | noArgs
  | one (x : Option Rat)
  | two (x : Option Rat) (id : Nat)
  deriving Repr, DecidableEq

/-- What `Howl.volume` returns: a read value or `this`. -/
inductive VolRet where
  | value (v : Rat)
  | selfRet
  deriving Repr, DecidableEq

/-- The read fallback of `Howl.volume` (lines 824-825):
`sound = id ? this._soundById(id) : this._sounds[0]` then
`sound ? sound._volume : 0`. -/
def volumeRead (h : Howl) (id : Option Nat) : Rat :=
  match id with
  | some n =>
      if n = 0 then
        match h._sounds.head? with
        | some s => s._volume
        | none => 0
      else
        match soundById h n with
        | some s => s._volume
        | none => 0
  | none =>
      match h._sounds.head? with
      | some s => s._volume
      | none => 0

/-- `this._getSoundIds().indexOf(args[0]) >= 0` (lines 770-776): the pool id
the single numeric argument coincides with, if any. -/
def idMatchVol (h : Howl) (v : Rat) : Option Nat :=
  (h._sounds.map (fun s => s._id)).find? (fun n => (n : Rat) = v)

/-- The per-sound body of `Howl.volume`'s write loop (lines 802-822): set the
voice volume, stop a running fade, push the value to the backend node and
emit a volume notification. -/
def volumeWriteList (v : Rat) : Howl → List Nat → Howl × List Effect
  | h, [] => (h, [])
  | h, i :: is =>
      match soundById h i with
      | some s =>
          let h1 := { h with _sounds := updateSound h._sounds i (fun s0 =>
            { s0 with _volume := v }) }
          let r2 := stopFade h1 i
          let fxn : List Effect :=
            if h._webAudio && !s._muted then [Effect.setGain i v]
            else if !s._muted then [Effect.setNodeVolume i v]
            else []
          let r3 := emitStep r2.1 VOLUME (some s._id)
          let r4 := volumeWriteList v r3.1 is
          (r4.1, r2.2 ++ fxn ++ r3.2 ++ r4.2)
      | none =>
          let r4 := volumeWriteList v h is
          (r4.1, r4.2)

/-- The write-or-read dispatch of `Howl.volume` (lines 782-828) on the
parsed `(vol, id)` pair: a write happens only for a defined numeric value
inside `[0, 1]` (with the not-loaded / play-lock deferral sitting inside the
write branch); everything else falls through to the read fallback. -/
def volumeDispatch (h : Howl) (parsed : Option Rat × Option Nat) :
    Howl × VolRet × List Effect :=
  match parsed.1 with
  | some v =>
      if 0 ≤ v ∧ v ≤ 1 then
        if h._state ≠ LOADED ∨ h._playLock then
          ({ h with _queue := h._queue ++ [⟨VOLUME, QAction.volume (some v) parsed.2⟩] },
           .selfRet, [])
        else
          let h1 := if parsed.2.isNone then { h with _volume := v } else h
          let r := volumeWriteList v h1 (getSoundIds h1 parsed.2)
          (r.1, .selfRet, r.2)
      else
        (h, .value (volumeRead h parsed.2), [])
  | none => (h, .value (volumeRead h parsed.2), [])

/-- `Howl.volume` (lines 759-829): argument parsing (a single numeric
argument that coincides with a live sound id is an id, `NaN` never passes
the range check) followed by the write-or-read dispatch. -/
def volumeOp (h : Howl) (args : VolArgs) : Howl × VolRet × List Effect :=
  match args with
  | .noArgs => (h, .value h._volume, [])
  | .one x =>
      match x with
      | some v =>
          match idMatchVol h v with
          | some n => volumeDispatch h (none, some n)
          | none => volumeDispatch h (some v, none)
      | none => volumeDispatch h (none, none)
  | .two x i => volumeDispatch h (x, some i)

/-- Arguments of `Howl.seek`: none, one (a position or an id — disambiguated
against the live id list), or two. -/
inductive SeekArgs where
  | noArgs
  | one (v : Rat)
  | two (v : Rat) (id : Nat)
  deriving Repr, DecidableEq

/-- What `Howl.seek` returns: a position or `this`. -/
inductive SeekRet where
  | value (v : Rat)
  | selfRet
  deriving Repr, DecidableEq

/-- `Howl.seek` (lines 1526-1622).  Argument resolution mirrors lines
1531-1549; with no resolvable id the call returns 0.  A defined numeric
seek while the group is not loaded or locked is deferred.  A write requires
`seek >= 0`: it pauses a playing voice internally, stores the position,
clears the voice's ended flag and timer, emits a seek notification and
replays a previously playing voice (for a playing HTML5 voice the source
polls the play lock in a timeout first; that deferral is recorded as an
effect).  Anything else is a read of the computed position. -/
def seekOp (h : Howl) (hs : HowlerState) (args : SeekArgs) (now : Rat) :
    Howl × HowlerState × SeekRet × List Effect :=
  let parsed : Option Rat × Option Nat :=
    match args with
    | .noArgs => (none, h._sounds.head?.map (fun s => s._id))
    | .one v =>
        match (h._sounds.map (fun s => s._id)).find? (fun (n : Nat) => ((n : Rat) = v)) with
        | some n => (none, some n)
        | none =>
            match h._sounds.head? with
            | some s => (some v, some s._id)
            | none => (none, none)
    | .two v i => (some v, some i)
  match parsed.2 with
  | none => (h, hs, .value 0, [])
  | some i =>
      if parsed.1.isSome ∧ (h._state ≠ LOADED ∨ h._playLock) then
        ({ h with _queue := h._queue ++ [⟨SEEK, QAction.seek parsed.1 parsed.2⟩] },
         hs, .selfRet, [])
      else
        match soundById h i with
        | none => (h, hs, .selfRet, [])
        | some s =>
            match parsed.1 with
            | some v =>
                if v ≥ 0 then
                  let wasPlaying := playing h (some i)
                  let r1 := if wasPlaying then pause h (some i) true now else (h, [])
                  let h2 := { r1.1 with _sounds := updateSound r1.1._sounds i (fun s0 =>
                    { s0 with _seek := v, _ended := false }) }
                  let h3 := clearTimer h2 i
                  let h4 :=
                    if !h3._webAudio then
                      { h3 with _sounds := updateSound h3._sounds i (fun s0 =>
                        { s0 with _nodeCurrentTime := v }) }
                    else h3
                  if wasPlaying && !h4._webAudio then
                    (h4, hs, .selfRet, r1.2 ++ [Effect.seekEmitDeferred i])
                  else
                    let r5 := emitStep h4 SEEK (some i)
                    if wasPlaying then
                      let p := play r5.1 hs (.byId i) true
                      (p.howl, p.hs, .selfRet, r1.2 ++ r5.2 ++ p.fx)
                    else
                      (r5.1, hs, .selfRet, r1.2 ++ r5.2)
                else
                  (h, hs, .value (seekReadValue h s now), [])
            | none => (h, hs, .value (seekReadValue h s now), [])

/-- The two id-assigning operations of the system: creating a voice
(`Sound.init`) and recycling one (`Sound.reset`); both execute
`this._id = ++Howler._counter`. -/
inductive AllocOp where
  | create
  | recycle
  deriving Repr, DecidableEq

/-- Run a sequence of voice creations/recycles against the global counter,
collecting the assigned ids in order (the group/voice parameters do not
influence the id). -/
def runAllocs (h : Howl) (s : Sound) : Nat → List AllocOp → Nat × List Nat
  | c, [] => (c, [])
  | c, op :: ops =>
      let r : Sound × Nat :=
        match op with
        | .create => mkSound h c
        | .recycle => resetSound h s c
      let rest := runAllocs h s r.2 ops
      (rest.1, r.1._id :: rest.2)

/-!
Protocol state machine for the pending-action queue (claim C1).  The queue
itself steps exclusively through `loadQueue`; the machine adds the two kinds
of triggers the source uses — enqueues, and `_loadQueue` calls with or
without an event tag — plus the bookkeeping bit `pend` recording that the
current head's action has been invoked and its completion event is awaited.
-/

/-- Whether an effect is a backend source-node start. -/
def isStartNode : Effect → Bool
  | .startNode _ _ _ => true
  | _ => false

/-- A paused, non-ended voice used in concrete example states. -/
def soundEx : Sound :=
  { _id := 1001
    _paused := true
    _ended := false
    _sprite := DEFAULT
    _seek := 0
    _rateSeek := 0
    _start := 0
    _stop := 0
    _playStart := 0
    _loop := false
    _muted := false
    _volume := 1
    _rate := 1
    _interval := false
    _fadeTo := none
    _nodeCurrentTime := 0
    _hasBufferSource := false }

/-- A loaded single-voice Web Audio group used in concrete example states. -/
def howlEx : Howl :=
  { _state := LOADED
    _playLock := false
    _webAudio := true
    _sounds := [soundEx]
    _sprite := [(DEFAULT, ⟨0, 1000, false⟩)]
    _queue := []
    _endTimers := []
    _volume := 1
    _rate := 1
    _loop := false
    _muted := false
    _pool := 5 }

/-- `howlEx` with the play lock held. -/
def howlLock : Howl := { howlEx with _playLock := true }

/-- A concrete global state. -/
def hsEx : HowlerState := ⟨1001, 0, true, true, true⟩

/-- A paused voice bound to a zero-length looping sprite. -/
def soundC3 : Sound := { soundEx with _sprite := "a" }

/-- Group with a zero-length looping sprite: playing it lands exactly on the
`seek >= stop` guard with the effective loop flag set. -/
def howlC3 : Howl :=
  { howlEx with _sounds := [soundC3], _sprite := [("a", ⟨0, 0, true⟩)] }

/-- A paused voice bound to a zero-length non-looping sprite. -/
def soundC3b : Sound := { soundEx with _sprite := "c" }

/-- Group with a zero-length non-looping sprite. -/
def howlC3b : Howl :=
  { howlEx with _sounds := [soundC3b], _sprite := [("c", ⟨0, 0, false⟩)] }

/-- One active and two inactive voices over a pool capacity of 1. -/
def howlC4 : Howl :=
  { howlEx with
      _pool := 1
      _sounds := [{ soundEx with _id := 2001, _ended := false },
                  { soundEx with _id := 2002, _ended := true },
                  { soundEx with _id := 2003, _ended := true }] }

/-- A playing looping voice whose recorded sprite window is [0s, 2s]. -/
def soundC5 : Sound :=
  { soundEx with _sprite := "b", _loop := true, _paused := false, _stop := 2 }

/-- Group hosting `soundC5`. -/
def howlC5 : Howl :=
  { howlEx with _sounds := [soundC5], _sprite := [("b", ⟨0, 2000, false⟩)] }

/-- The canonical post-load voice for the play/stop/play scenario: inactive
(`paused`, `ended`) with no fade in flight. -/
def soundC6 : Sound := { soundEx with _ended := true }

/-- The play/stop/play scenario group: loaded, unlocked, Web Audio, one
inactive voice, and a default sprite `[off, dur, lp]`. -/
def groupC6 (off dur : Rat) (lp : Bool) (rate : Rat) : Howl :=
  { _state := LOADED
    _playLock := false
    _webAudio := true
    _sounds := [soundC6]
    _sprite := [(DEFAULT, ⟨off, dur, lp⟩)]
    _queue := []
    _endTimers := []
    _volume := 1
    _rate := rate
    _loop := false
    _muted := false
    _pool := 5 }

/-- Global state for the play/stop/play scenario: running context, ready
node. -/
def hsC6 (t : Rat) : HowlerState := ⟨2000, t, true, true, true⟩

/-- `play()` then `stop()` then `play()` on the scenario group, returning
the final group state. -/
def playStopPlay (off dur : Rat) (lp : Bool) (rate : Rat) (t : Rat) : Howl :=
  let p1 := play (groupC6 off dur lp rate) (hsC6 t) .noArg false
  let st := stop p1.howl none false
  (play st.1 p1.hs .noArg false).howl

/-- The recycled voice right after the scenario's first `play()` (the seek
is left in its computed `max 0 (off / 1000)` form). -/
def sAfterPlay1 (off dur : Rat) (lp : Bool) (rate t : Rat) : Sound :=
  { _id := 2001, _paused := false, _ended := false, _sprite := DEFAULT,
    _seek := max 0 (off / 1000), _rateSeek := 0, _start := off / 1000,
    _stop := (off + dur) / 1000, _playStart := t, _loop := lp, _muted := false,
    _volume := 1, _rate := rate, _interval := false, _fadeTo := none,
    _nodeCurrentTime := 0, _hasBufferSource := true }

/-- The scenario group right after its first `play()`. -/
def groupAfterPlay1 (off dur : Rat) (lp : Bool) (rate t : Rat) : Howl :=
  { _state := LOADED, _playLock := false, _webAudio := true,
    _sounds := [sAfterPlay1 off dur lp rate t],
    _sprite := [(DEFAULT, ⟨off, dur, lp⟩)], _queue := [],
    _endTimers := [(2001, some (max 0 ((off + dur) / 1000 - max 0 (off / 1000)) *
      1000 / |rate|))],
    _volume := 1, _rate := rate, _loop := false, _muted := false, _pool := 5 }

/-- The scenario group after `stop()`: the voice is parked at the sprite
start and the timer is cleared. -/
def groupStopped (off dur : Rat) (lp : Bool) (rate t : Rat) : Howl :=
  { groupAfterPlay1 off dur lp rate t with
      _sounds := [{ sAfterPlay1 off dur lp rate t with
        _seek := off / 1000, _rateSeek := 0, _paused := true, _ended := true,
        _hasBufferSource := false }]
      _endTimers := [] }

/-- The voice recycled by the scenario's second `play()` before its
parameters are set. -/
def sReset2 (off dur : Rat) (_lp : Bool) (rate t : Rat) : Sound :=
  { _id := 2002, _paused := true, _ended := true, _sprite := DEFAULT,
    _seek := 0, _rateSeek := 0, _start := off / 1000,
    _stop := (off + dur) / 1000, _playStart := t, _loop := false, _muted := false,
    _volume := 1, _rate := rate, _interval := false, _fadeTo := none,
    _nodeCurrentTime := 0, _hasBufferSource := false }

/-- C8: voice ids come from one process-wide monotonically increasing
counter: along any sequence of voice creations (`Sound.init`) and recycles
(`Sound.reset`), each assigned id is strictly greater than every id assigned
before it and than the starting counter value, so no id is ever reused. -/
theorem C8_voice_id_allocation (h : Howl) (s : Sound) (c : Nat) (ops : List AllocOp) :
    (runAllocs h s c ops).2.Pairwise (· < ·) ∧
    (∀ i ∈ (runAllocs h s c ops).2, c < i) ∧
    (runAllocs h s c ops).2.Nodup := by
  have key : ∀ (ops : List AllocOp) (c : Nat),
      (runAllocs h s c ops).2.Pairwise (· < ·) ∧
      ∀ i ∈ (runAllocs h s c ops).2, c < i := by
    intro ops
    induction ops with
    | nil => intro c; simp [runAllocs]
    | cons op ops ih =>
        intro c
        have hid : (runAllocs h s c (op :: ops)).2 =
            (c + 1) :: (runAllocs h s (c + 1) ops).2 := by
          cases op <;> simp [runAllocs, mkSound, resetSound]
        rw [hid]
        obtain ⟨hp, hgt⟩ := ih (c + 1)
        refine ⟨List.pairwise_cons.mpr ⟨fun b hb => hgt b hb, hp⟩, ?_⟩
        intro i hi
        rcases List.mem_cons.mp hi with h1 | h1
        · omega
        · have := hgt i h1; omega
  obtain ⟨hp, hgt⟩ := key ops c
  exact ⟨hp, hgt, hp.imp (fun hlt => Nat.ne_of_lt hlt)⟩

/-- C9: `playing` with a numeric id that matches no voice in the pool
returns false, and `playing` with no argument returns true exactly when some
pool voice is not paused. -/
theorem C9_playing_query (h : Howl) (n : Nat) :
    (soundById h n = none → playing h (some n) = false) ∧
    (playing h none = true ↔ ∃ s ∈ h._sounds, s._paused = false) := by
  constructor
  · intro hn
    simp [playing, hn]
  · simp [playing, List.any_eq_true]

/-- Witness for C9 on a concrete group: id 9999 matches no voice. -/
theorem C9_playing_query_witness : playing howlEx (some 9999) = false :=
  (C9_playing_query howlEx 9999).1 (by decide)

/-- C7: a `volume` call whose numeric argument lies outside `[0, 1]`, or is
non-numeric (`parseFloat` gave `NaN`), modifies neither the group volume nor
any voice volume and instead returns the current volume through the read
fallback. -/
theorem C7_volume_invalid_is_read (h : Howl) (v : Rat) (i : Nat)
    (hv : ¬(0 ≤ v ∧ v ≤ 1)) :
    volumeOp h (.one (some v)) = (h, .value (volumeRead h (idMatchVol h v)), []) ∧
    volumeOp h (.one none) = (h, .value (volumeRead h none), []) ∧
    volumeOp h (.two (some v) i) = (h, .value (volumeRead h (some i)), []) := by
  refine ⟨?_, ?_, ?_⟩
  · cases hm : idMatchVol h v with
    | none => simp [volumeOp, volumeDispatch, hm, hv]
    | some n => simp [volumeOp, volumeDispatch, hm]
  · simp [volumeOp, volumeDispatch]
  · simp [volumeOp, volumeDispatch, hv]

/-- Witness for C7 at volume 2 on a concrete group. -/
theorem C7_volume_invalid_is_read_witness :
    volumeOp howlEx (.one (some 2)) =
      (howlEx, .value (volumeRead howlEx (idMatchVol howlEx 2)), []) :=
  (C7_volume_invalid_is_read howlEx 2 1001 (by norm_num)).1

/-- C10 counterexample: on a loaded group whose play lock is held, a
negative seek write is deferred — the call returns `this` (not the computed
position) and appends a queue record, contradicting the claim as stated for
every loaded group. -/
theorem C10_counterexample :
    (seekOp howlLock hsEx (.two (-1) 1001) 0).2.2.1 = SeekRet.selfRet ∧
    (seekOp howlLock hsEx (.two (-1) 1001) 0).1._queue ≠ howlLock._queue := by
  constructor <;> decide

/-- C10 (amended: additionally require that no play lock is held): on a
loaded, unlocked group, a seek call with a negative position performs no
write — the group state (voice fields, timers, queue) is untouched — and
returns the computed current position. -/
theorem C10_seek_negative_is_read (h : Howl) (hs : HowlerState) (v : Rat) (i : Nat)
    (s : Sound) (now : Rat) (hst : h._state = LOADED) (hlock : h._playLock = false)
    (hv : v < 0) (hsnd : soundById h i = some s) :
    seekOp h hs (.two v i) now = (h, hs, .value (seekReadValue h s now), []) := by
  have hv2 : ¬ v ≥ 0 := not_le.mpr hv
  simp [seekOp, hst, hlock, hsnd, hv2]

/-- Witness for the amended C10 on a concrete group. -/
theorem C10_seek_negative_is_read_witness :
    seekOp howlEx hsEx (.two (-1) 1001) 0 =
      (howlEx, hsEx, .value (seekReadValue howlEx soundEx 0), []) :=
  C10_seek_negative_is_read howlEx hsEx (-1) 1001 soundEx 0 (by rfl) (by rfl)
    (by norm_num) (by decide)

theorem drainLoop_filter (limit : Nat) :
    ∀ (l : List Sound) (cnt : Nat),
      (drainLoop l cnt limit).filter (fun s => !s._ended) =
        l.filter (fun s => !s._ended) := by
  intro l
  induction l with
  | nil => intro cnt; simp [drainLoop]
  | cons x xs ih =>
      intro cnt
      by_cases hc : cnt ≤ limit
      · simp [drainLoop, hc]
      · by_cases he : x._ended
        · simp [drainLoop, hc, he, ih]
        · simp [drainLoop, hc, he, ih]

theorem drainLoop_count (limit : Nat) :
    ∀ (l : List Sound) (cnt : Nat), cnt = l.countP (fun s => s._ended) →
      (drainLoop l cnt limit).countP (fun s => s._ended) ≤ limit := by
  intro l
  induction l with
  | nil => intro cnt _; simp [drainLoop]
  | cons x xs ih =>
      intro cnt hc
      by_cases hle : cnt ≤ limit
      · have hres : drainLoop (x :: xs) cnt limit = x :: xs := by
          simp [drainLoop, hle]
        rw [hres, ← hc]
        exact hle
      · by_cases he : x._ended
        · have hres : drainLoop (x :: xs) cnt limit = drainLoop xs (cnt - 1) limit := by
            simp [drainLoop, hle, he]
          rw [hres]
          refine ih (cnt - 1) ?_
          rw [hc]
          simp [List.countP_cons, he]
        · have hres : drainLoop (x :: xs) cnt limit = x :: drainLoop xs cnt limit := by
            simp [drainLoop, hle, he]
          rw [hres]
          have : cnt = xs.countP (fun s => s._ended) := by
            rw [hc]; simp [List.countP_cons, he]
          simpa [List.countP_cons, he] using ih cnt this

/-- C4 counterexample: a group with pool capacity 1 holding one active and
two inactive voices: after a drain the list still has 2 entries, exceeding
`max(poolCapacity, activeVoiceCount) = 1` — the code keeps up to
`poolCapacity` inactive voices in addition to the active ones. -/
theorem C4_counterexample :
    ¬((drain howlC4)._sounds.length ≤
        max howlC4._pool ((drain howlC4)._sounds.countP (fun s => !s._ended))) := by
  decide

/-- C4 (amended: the length bound is `activeVoiceCount + poolCapacity`,
holding immediately after a drain): `_drain` never removes a voice whose
`ended` flag is false (the non-ended sublist is exactly preserved), and
right after a drain the pool length is at most the number of active voices
plus the pool capacity. -/
theorem C4_drain_spares_active (h : Howl) :
    (drain h)._sounds.filter (fun s => !s._ended) =
      h._sounds.filter (fun s => !s._ended) ∧
    (drain h)._sounds.length ≤
      (drain h)._sounds.countP (fun s => !s._ended) + h._pool := by
  by_cases hlen : h._sounds.length < h._pool
  · constructor
    · simp [drain, hlen]
    · simp only [drain, hlen, if_pos]
      omega
  · have hfilter : (drain h)._sounds.filter (fun s => !s._ended) =
        h._sounds.filter (fun s => !s._ended) := by
      simp only [drain, hlen, if_neg, not_false_iff]
      rw [List.filter_reverse, drainLoop_filter, List.filter_reverse, List.reverse_reverse]
    refine ⟨hfilter, ?_⟩
    have hcnt : (drain h)._sounds.countP (fun s => s._ended) ≤ h._pool := by
      simp only [drain, hlen, if_neg, not_false_iff]
      rw [List.countP_reverse]
      exact drainLoop_count h._pool h._sounds.reverse _ (by rw [List.countP_reverse])
    have hsplit := List.length_eq_countP_add_countP
      (l := (drain h)._sounds) (fun s => s._ended)
    have hnot : (drain h)._sounds.countP (fun a => decide ¬(a._ended = true)) =
        (drain h)._sounds.countP (fun s => !s._ended) := by
      apply List.countP_congr
      intro a _
      simp
    omega

theorem find?_of_updateSound (i : Nat) (f : Sound → Sound) (s : Sound)
    (hf : ∀ x, (f x)._id = x._id) :
    ∀ l : List Sound, l.find? (fun x => x._id = i) = some s →
      (updateSound l i f).find? (fun x => x._id = i) = some (f s) := by
  intro l
  induction l with
  | nil => intro hfind; simp at hfind
  | cons x xs ih =>
      intro hfind
      by_cases hx : x._id = i
      · have hs : x = s := by
          have h2 := hfind
          rw [List.find?_cons_of_pos _ (by simpa using hx)] at h2
          exact Option.some.inj h2
        subst hs
        simp only [updateSound, List.map_cons, if_pos hx]
        rw [List.find?_cons_of_pos _ (by simp [hf, hx])]
      · have hfind2 : xs.find? (fun x => x._id = i) = some s := by
          have h2 := hfind
          rw [List.find?_cons_of_neg _ (by simpa using hx)] at h2
          exact h2
        simp only [updateSound, List.map_cons, if_neg hx]
        rw [List.find?_cons_of_neg _ (by simpa using hx)]
        simpa [updateSound] using ih hfind2

theorem find?_timer_of_cleared (n : Nat) :
    ∀ l : List (Nat × Option Rat),
      (l.filter (fun p => p.1 ≠ n)).find? (fun p => p.1 = n) = none := by
  intro l
  induction l with
  | nil => simp
  | cons x xs ih =>
      by_cases hx : x.1 = n
      · simp [List.filter_cons, hx, ih]
      · simp [List.filter_cons, hx, ih]

/-- C5: for a buffered-mode (Web Audio) voice whose effective loop flag
(voice override OR sprite loop flag) is set, a firing of the end transition
emits an end notification followed by a synthetic play notification, resets
the voice's seek and rate baseline to the sprite start, re-anchors the start
timestamp to the current backend clock, and re-arms an end timer whose
duration is one full sprite cycle, `(spriteStop - spriteStart) * 1000 /
|rate|` milliseconds. -/
theorem C5_webaudio_loop_rearm (h : Howl) (sid : Nat) (s : Sound) (d : SpriteDef)
    (now : Rat)
    (hweb : h._webAudio = true)
    (hsnd : soundById h sid = some s)
    (hspr : h._sprite.lookup s._sprite = some d)
    (hloop : (s._loop || d.loopFlag) = true)
    (hstart : s._start = d.offsetMs / 1000)
    (hstop : s._stop = (d.offsetMs + d.durationMs) / 1000)
    (_hrate : s._rate ≠ 0)
    (hq : h._queue = []) :
    (endedStep h sid now).2 =
      [Effect.emit ENDEV (some sid), Effect.emit PLAY (some sid)] ∧
    soundById (endedStep h sid now).1 sid =
      some { s with _seek := d.offsetMs / 1000, _rateSeek := 0, _playStart := now } ∧
    (endedStep h sid now).1._endTimers.find? (fun p => p.1 = sid) =
      some (sid, some (((d.offsetMs + d.durationMs) / 1000 - d.offsetMs / 1000) *
        1000 / |s._rate|)) := by
  have hf : ∀ x : Sound,
      ({ x with _seek := x._start, _rateSeek := 0, _playStart := now } : Sound)._id
        = x._id := fun x => rfl
  refine ⟨?_, ?_, ?_⟩
  · simp [endedStep, hsnd, hspr, hloop, hweb, emitStep, loadQueueEvent, loadQueue, hq]
  · have hmain : (endedStep h sid now).1._sounds = updateSound h._sounds sid
        (fun s0 => { s0 with _seek := s0._start, _rateSeek := 0, _playStart := now }) := by
      simp [endedStep, hsnd, hspr, hloop, hweb, emitStep, loadQueueEvent, loadQueue,
            hq, setTimer]
    simp only [soundById]
    rw [hmain]
    rw [find?_of_updateSound sid
      (fun s0 => { s0 with _seek := s0._start, _rateSeek := 0, _playStart := now })
      s hf h._sounds (by simpa [soundById] using hsnd)]
    simp [hstart]
  · have htim : (endedStep h sid now).1._endTimers =
        (sid, some (((s._stop - s._start) * 1000) / |s._rate|)) ::
          h._endTimers.filter (fun p => p.1 ≠ sid) := by
      simp [endedStep, hsnd, hspr, hloop, hweb, emitStep, loadQueueEvent, loadQueue,
            hq, setTimer]
    rw [htim, List.find?_cons_of_pos _ (by simp), hstart, hstop]

/-- Witness for C5 on a concrete looping voice with sprite window
[0s, 2s]. -/
theorem C5_webaudio_loop_rearm_witness :
    (endedStep howlC5 1001 7).2 =
      [Effect.emit ENDEV (some 1001), Effect.emit PLAY (some 1001)] ∧
    soundById (endedStep howlC5 1001 7).1 1001 =
      some { soundC5 with _seek := 0 / 1000, _rateSeek := 0, _playStart := 7 } ∧
    (endedStep howlC5 1001 7).1._endTimers.find? (fun p => p.1 = 1001) =
      some (1001, some (((0 + 2000) / 1000 - 0 / 1000) * 1000 / |soundC5._rate|)) :=
  C5_webaudio_loop_rearm howlC5 1001 soundC5 ⟨0, 2000, false⟩ 7 (by rfl) (by decide)
    (by decide) (by decide) (by norm_num [soundC5, soundEx]) (by norm_num [soundC5, soundEx])
    (by norm_num [soundC5, soundEx]) (by rfl)

theorem soundById_id_eq (h : Howl) (n : Nat) (s : Sound)
    (hsnd : soundById h n = some s) : s._id = n := by
  have hfind : h._sounds.find? (fun x => x._id = n) = some s := by
    simpa [soundById] using hsnd
  simpa using List.find?_some hfind

/-- Reduction of `Howl.play` on an explicit id once the computed seek is at
or past the sprite end: the sound's sprite/ended fields are written and the
end transition is dispatched in place of playback, returning `this`. -/
theorem play_past_end_eq (h : Howl) (hs : HowlerState) (s : Sound) (n : Nat)
    (d : SpriteDef)
    (hst : h._state = LOADED) (hn : n ≠ 0) (hsnd : soundById h n = some s)
    (hpaused : s._paused = true)
    (hspr : h._sprite.lookup (if s._sprite = "" then DEFAULT else s._sprite) = some d)
    (hseek : max 0 (if s._seek > 0 then s._seek else d.offsetMs / 1000) ≥
      (d.offsetMs + d.durationMs) / 1000) :
    play h hs (.byId n) false =
      ⟨(endedStep { h with _sounds := updateSound h._sounds n (fun s0 =>
          { s0 with _sprite := if s._sprite = "" then DEFAULT else s._sprite,
                    _ended := false }) } n hs.ctxTime).1, hs, .selfRet,
        (if h._webAudio then [Effect.autoResume] else []) ++
          (endedStep { h with _sounds := updateSound h._sounds n (fun s0 =>
            { s0 with _sprite := if s._sprite = "" then DEFAULT else s._sprite,
                      _ended := false }) } n hs.ctxTime).2⟩ := by
  have hids : s._id = n := soundById_id_eq h n s hsnd
  unfold play
  simp only [hsnd, hn, if_neg, ite_false]
  unfold playWithSound
  rw [if_neg (show ¬ h._state ≠ LOADED from by simp [hst])]
  simp only [hpaused, Option.isSome, Bool.not_true, Bool.and_false, hspr, ite_false]
  unfold playLoaded
  rw [if_pos hseek]
  simp only [hids]
  rw [if_neg (by simp : ¬ (false = true))]

/-- Projections of `Howl._ended` in the Web Audio, non-looping case: the
voice is parked (paused, ended, seek rewound to the recorded sprite start),
its timer entry is dropped, and the effects are the end notification, the
queue advances it triggered, the buffer cleanup and the auto-suspend
check. -/
theorem endedStep_webaudio_noloop_spec (h : Howl) (sid : Nat) (s : Sound)
    (now : Rat) (hweb : h._webAudio = true) (hsnd : soundById h sid = some s)
    (hloop : (s._loop || (match h._sprite.lookup s._sprite with
        | some d => d.loopFlag | none => false)) = false) :
    (endedStep h sid now).1._sounds = updateSound h._sounds sid (fun s0 =>
        { s0 with _paused := true, _ended := true, _seek := s0._start,
                  _rateSeek := 0, _hasBufferSource := false }) ∧
    (endedStep h sid now).1._endTimers = h._endTimers.filter (fun p => p.1 ≠ sid) ∧
    (endedStep h sid now).2 = Effect.emit ENDEV (some sid) ::
      ((loadQueue (some ENDEV) h._queue).2.map Effect.invoke ++
        [Effect.cleanBuffer sid, Effect.autoSuspend]) := by
  refine ⟨?_, ?_, ?_⟩ <;>
    simp [endedStep, hsnd, hloop, hweb, emitStep, loadQueueEvent, clearTimer]

/-- C3 counterexample: playing a voice bound to a zero-length looping sprite
lands exactly on the `seek >= stop` guard — the end transition is dispatched
in place of playback (`play` returns `this`) — yet an end timer IS armed for
that voice, because the dispatched `_ended` takes its Web Audio looping
branch and re-arms the cycle timer. -/
theorem C3_counterexample :
    (play howlC3 hsEx (.byId 1001) false).ret = PlayRet.selfRet ∧
    (play howlC3 hsEx (.byId 1001) false).howl._endTimers.find?
      (fun p => p.1 = 1001) ≠ none := by
  have he := play_past_end_eq howlC3 hsEx soundC3 1001 ⟨0, 0, true⟩ (by rfl)
    (by decide) (by rfl) (by rfl) (by rfl) (by norm_num [soundC3, soundEx])
  rw [he]
  constructor
  · rfl
  · decide

/-- C3 (amended: restricted to a voice whose effective loop flag — voice
override OR sprite loop flag — is false; a looping voice instead re-arms a
cycle timer and re-anchors its start timestamp inside the dispatched end
transition, see the counterexample): when play computes a seek at or past
the sprite end, the end transition is dispatched synchronously in place of
playback — the call returns `this`, no backend source node is started, no
start timestamp is recorded, and no end timer is armed for that voice. -/
theorem C3_play_past_end_dispatches_ended (h : Howl) (hs : HowlerState) (s : Sound)
    (n : Nat) (d : SpriteDef)
    (hweb : h._webAudio = true)
    (hst : h._state = LOADED)
    (hn : n ≠ 0)
    (hsnd : soundById h n = some s)
    (hpaused : s._paused = true)
    (hspr : h._sprite.lookup (if s._sprite = "" then DEFAULT else s._sprite) = some d)
    (hloopv : s._loop = false) (hloopd : d.loopFlag = false)
    (hseek : max 0 (if s._seek > 0 then s._seek else d.offsetMs / 1000) ≥
      (d.offsetMs + d.durationMs) / 1000) :
    (play h hs (.byId n) false).ret = PlayRet.selfRet ∧
    (play h hs (.byId n) false).fx.all (fun e => !isStartNode e) = true ∧
    (play h hs (.byId n) false).howl._endTimers.find? (fun p => p.1 = n) = none ∧
    ((play h hs (.byId n) false).howl._sounds.find? (fun x => x._id = n)).map
      (fun x => x._playStart) = some s._playStart := by
  have hfind : h._sounds.find? (fun x => x._id = n) = some s := by
    simpa [soundById] using hsnd
  have he := play_past_end_eq h hs s n d hst hn hsnd hpaused hspr hseek
  set f1 : Sound → Sound := fun s0 =>
    { s0 with _sprite := if s._sprite = "" then DEFAULT else s._sprite,
              _ended := false } with hf1def
  have hf1 : ∀ x : Sound, (f1 x)._id = x._id := fun x => rfl
  set hUp : Howl := { h with _sounds := updateSound h._sounds n f1 } with hUpdef
  have hsnd1 : soundById hUp n = some (f1 s) := by
    simp only [soundById, hUpdef]
    exact find?_of_updateSound n f1 s hf1 h._sounds hfind
  have hloop1 : ((f1 s)._loop || (match hUp._sprite.lookup (f1 s)._sprite with
      | some d => d.loopFlag | none => false)) = false := by
    simp [hf1def, hUpdef, hspr, hloopv, hloopd]
  have hspec := endedStep_webaudio_noloop_spec hUp n (f1 s) hs.ctxTime
    (by simp [hUpdef, hweb]) hsnd1 hloop1
  rw [he]
  refine ⟨rfl, ?_, ?_, ?_⟩
  · simp only [hweb]
    simp [hspec.2.2, isStartNode, List.all_append, List.all_map, Function.comp]
  · have ht : hUp._endTimers = h._endTimers := by simp [hUpdef]
    simp only [hspec.2.1, ht]
    exact find?_timer_of_cleared n h._endTimers
  · have hf2 : ∀ x : Sound,
        ((fun s0 : Sound => { s0 with
            _paused := true, _ended := true, _seek := s0._start,
            _rateSeek := 0, _hasBufferSource := false }) x)._id = x._id :=
      fun x => rfl
    have hsounds : hUp._sounds = updateSound h._sounds n f1 := by simp [hUpdef]
    simp only [hspec.1, hsounds]
    rw [find?_of_updateSound n _ (f1 s) hf2 (updateSound h._sounds n f1)
      (by simpa [soundById, hUpdef] using hsnd1)]
    rfl

/-- Witness for the amended C3 at a zero-length non-looping sprite. -/
theorem C3_play_past_end_dispatches_ended_witness :
    (play howlC3b hsEx (.byId 1001) false).ret = PlayRet.selfRet ∧
    (play howlC3b hsEx (.byId 1001) false).fx.all (fun e => !isStartNode e) = true ∧
    (play howlC3b hsEx (.byId 1001) false).howl._endTimers.find?
      (fun p => p.1 = 1001) = none ∧
    ((play howlC3b hsEx (.byId 1001) false).howl._sounds.find?
      (fun x => x._id = 1001)).map (fun x => x._playStart) =
        some soundC3b._playStart :=
  C3_play_past_end_dispatches_ended howlC3b hsEx soundC3b 1001 ⟨0, 0, false⟩
    (by rfl) (by rfl) (by decide) (by rfl) (by rfl) (by rfl) (by rfl) (by rfl)
    (by norm_num [soundC3b, soundEx])

theorem playWebAudio_hs (h1 : Howl) (hs : HowlerState) (s : Sound) (d : SpriteDef)
    (a b c e f : Rat) (internal : Bool) :
    (playWebAudio h1 hs s d a b c e f internal).hs = hs := by
  unfold playWebAudio
  split <;> rfl

theorem playHtml5_hs (h1 : Howl) (hs : HowlerState) (s : Sound) (sprite : String)
    (d : SpriteDef) (a b c e f : Rat) (internal : Bool) :
    (playHtml5 h1 hs s sprite d a b c e f internal).hs = hs := by
  unfold playHtml5
  split
  · split
    · rfl
    · split <;> rfl
  · rfl

theorem playLoaded_hs (h : Howl) (hs : HowlerState) (s : Sound) (sprite : String)
    (d : SpriteDef) (internal : Bool) :
    (playLoaded h hs s sprite d internal).hs = hs := by
  unfold playLoaded
  dsimp only
  repeat' split
  all_goals first
    | rfl
    | exact playWebAudio_hs ..
    | exact playHtml5_hs ..

theorem playWithSound_hs (h : Howl) (hs : HowlerState) (id? : Option Nat)
    (sprite? : Option String) (s : Sound) (internal : Bool) :
    (playWithSound h hs id? sprite? s internal).hs = hs := by
  unfold playWithSound
  dsimp only
  repeat' split
  all_goals first
    | rfl
    | simp [playLoaded_hs]

theorem inactiveSound_counter (h : Howl) (c : Nat) :
    (inactiveSound h c).2.1 = c + 1 := by
  unfold inactiveSound
  dsimp only
  split <;> rfl

/-- C2: with no play lock held, a no-argument `play` on a pool holding
exactly one paused, non-ended voice selects exactly that voice's id with the
sprite selection dropped, and the global voice counter is untouched — no
voice is allocated or recycled (both would draw a fresh id from the
counter); with zero or several such voices the resolution instead keeps the
default sprite with no id, and a voice is allocated or recycled (the counter
is bumped). -/
theorem C2_play_resume_single_paused (h : Howl) (hs : HowlerState) (s : Sound)
    (_hst : h._state = LOADED) (hlock : h._playLock = false)
    (hone : h._sounds.filter (fun x => x._paused && !x._ended) = [s])
    (hn : s._id ≠ 0) :
    playSelect h = (some s._id, none) ∧
    (play h hs .noArg false).hs.counter = hs.counter ∧
    (∀ (h2 : Howl) (hs2 : HowlerState), h2._playLock = false →
      (h2._sounds.filter (fun x => x._paused && !x._ended)).length ≠ 1 →
      playSelect h2 = (none, some DEFAULT) ∧
      (play h2 hs2 .noArg false).hs.counter = hs2.counter + 1) := by
  have hsel : playSelect h = (some s._id, none) := by
    simp [playSelect, hlock, hone]
  refine ⟨hsel, ?_, ?_⟩
  · unfold play
    simp only [hsel]
    rw [if_neg hn]
    try dsimp only
    cases hfind : soundById h s._id with
    | none => simp [hfind]
    | some s2 => simp [hfind, playWithSound_hs]
  · intro h2 hs2 hlock2 hlen
    have hsel2 : playSelect h2 = (none, some DEFAULT) := by
      simp [playSelect, hlock2, hlen]
    refine ⟨hsel2, ?_⟩
    unfold play
    simp only [hsel2]
    cases hfind : soundById (inactiveSound h2 hs2.counter).1
        (inactiveSound h2 hs2.counter).2.2 with
    | none => simp [inactiveSound_counter]
    | some s2 => simp [playWithSound_hs, inactiveSound_counter]

/-- Witness for C2 on a concrete group with exactly one paused non-ended
voice. -/
theorem C2_play_resume_single_paused_witness :
    playSelect howlEx = (some soundEx._id, none) ∧
    (play howlEx hsEx .noArg false).hs.counter = hsEx.counter :=
  ⟨(C2_play_resume_single_paused howlEx hsEx soundEx (by rfl) (by rfl) (by decide)
      (by decide)).1,
   (C2_play_resume_single_paused howlEx hsEx soundEx (by rfl) (by rfl) (by decide)
      (by decide)).2.1⟩

theorem updateSound_comp (l : List Sound) (i : Nat) (f g : Sound → Sound)
    (hf : ∀ x, (f x)._id = x._id) :
    updateSound (updateSound l i f) i g = updateSound l i (fun x => g (f x)) := by
  induction l with
  | nil => rfl
  | cons x xs ih =>
      by_cases hx : x._id = i
      · simp only [updateSound, List.map_cons, if_pos hx, hf, if_pos] at ih ⊢
        exact congrArg _ ih
      · simp only [updateSound, List.map_cons, if_neg hx] at ih ⊢
        exact congrArg _ ih

theorem play_alloc_eq (h : Howl) (hs : HowlerState) (s : Sound)
    (hsel : playSelect h = (none, some DEFAULT))
    (hfound : soundById (inactiveSound h hs.counter).1
      (inactiveSound h hs.counter).2.2 = some s) :
    play h hs .noArg false =
      playWithSound (inactiveSound h hs.counter).1
        { hs with counter := (inactiveSound h hs.counter).2.1 } none (some DEFAULT)
        s false := by
  unfold play
  simp only [hsel]
  try dsimp only
  rw [hfound]

theorem playWithSound_alloc_eq (h : Howl) (hs : HowlerState) (s : Sound)
    (sp : String) (d : SpriteDef)
    (hst : h._state = LOADED) (hspr : h._sprite.lookup sp = some d) :
    playWithSound h hs none (some sp) s false =
      ⟨(playLoaded h hs s sp d false).howl, (playLoaded h hs s sp d false).hs,
       (playLoaded h hs s sp d false).ret,
       (if h._webAudio = true then [Effect.autoResume] else []) ++
         (playLoaded h hs s sp d false).fx⟩ := by
  unfold playWithSound
  rw [if_neg (show ¬ h._state ≠ LOADED from by simp [hst])]
  simp only [Option.isSome, Bool.false_and, Bool.false_eq_true, if_false, hspr]

theorem playLoaded_webaudio_start_eq (h : Howl) (hs : HowlerState) (s : Sound)
    (sp : String) (d : SpriteDef) (internal : Bool)
    (hweb : h._webAudio = true) (hrun : hs.ctxRunning = true) (hr : s._rate ≠ 0)
    (hnot : ¬(max 0 (if s._seek > 0 then s._seek else d.offsetMs / 1000) ≥
      (d.offsetMs + d.durationMs) / 1000)) :
    playLoaded h hs s sp d internal =
      ⟨setTimer
        { h with
            _playLock := false
            _sounds := updateSound h._sounds s._id (fun s0 =>
              { s0 with
                  _paused := false
                  _ended := false
                  _sprite := sp
                  _seek := max 0 (if s._seek > 0 then s._seek else d.offsetMs / 1000)
                  _start := d.offsetMs / 1000
                  _stop := (d.offsetMs + d.durationMs) / 1000
                  _loop := (s0._loop || d.loopFlag)
                  _playStart := hs.ctxTime
                  _hasBufferSource := true }) }
        s._id (some (max 0 ((d.offsetMs + d.durationMs) / 1000 -
          max 0 (if s._seek > 0 then s._seek else d.offsetMs / 1000)) * 1000 / |s._rate|)),
       hs, .idRet s._id,
       [Effect.refreshBuffer s._id,
        Effect.setGain s._id (if s._muted || h._muted then 0 else s._volume),
        Effect.startNode s._id
          (max 0 (if s._seek > 0 then s._seek else d.offsetMs / 1000))
          (if (s._loop || d.loopFlag) then 86400
           else max 0 ((d.offsetMs + d.durationMs) / 1000 -
             max 0 (if s._seek > 0 then s._seek else d.offsetMs / 1000)))] ++
        (if !internal then [Effect.scheduleEmitPlay s._id] else [])⟩ := by
  have hf1 : ∀ x : Sound, ((fun s0 : Sound =>
      { s0 with _sprite := sp, _ended := false }) x)._id = x._id := fun x => rfl
  have hf2 : ∀ x : Sound, ((fun s0 : Sound =>
      { s0 with
          _paused := false, _seek := max 0 (if s._seek > 0 then s._seek
            else d.offsetMs / 1000),
          _start := d.offsetMs / 1000, _stop := (d.offsetMs + d.durationMs) / 1000,
          _loop := (s0._loop || d.loopFlag), _sprite := sp, _ended := false }) x)._id
        = x._id := fun x => rfl
  unfold playLoaded
  dsimp only
  rw [if_neg hnot]
  simp only [hweb, if_true]
  unfold playWebAudio setParamsUpd
  dsimp only
  simp only [hrun, if_true]
  rw [if_pos hr]
  rw [updateSound_comp _ _ _ _ hf1, updateSound_comp _ _ _ _ hf2]

/-- `Howl._stopFade` leaves the pool an `updateSound` of the original with a
function that only touches the fade bookkeeping fields: id, paused, ended and
seek are preserved. -/
theorem stopFade_sounds (h : Howl) (i : Nat) :
    ∃ g : Sound → Sound, ((stopFade h i).1)._sounds = updateSound h._sounds i g ∧
      ∀ x, (g x)._id = x._id ∧ (g x)._paused = x._paused ∧
        (g x)._ended = x._ended ∧ (g x)._seek = x._seek := by
  unfold stopFade
  cases hfind : soundById h i with
  | none =>
      refine ⟨fun x => x, ?_, by simp⟩
      simp [updateSound]
  | some s =>
      dsimp only
      by_cases hint : s._interval = true
      · refine ⟨clearFadeUpd, ?_, fun x => ⟨rfl, rfl, rfl, rfl⟩⟩
        simp only [hint, if_true]
        rfl
      · refine ⟨fun x => x, ?_, by simp⟩
        simp only [hint, if_false, Bool.false_eq_true]
        simp [updateSound]

/-- The guarded notification step never touches the pool. -/
theorem emit_if_sounds (c : Bool) (X : Howl) (e : String) (id : Option Nat) :
    ((if c then emitStep X e id else (X, [])).1)._sounds = X._sounds := by
  cases c <;> rfl

/-- One iteration of the `stop` loop on an existing voice: the voice is
found again afterwards, now paused, ended and rewound to its recorded sprite
start. -/
theorem stopOne_marks (h : Howl) (i : Nat) (internal : Bool) (s : Sound)
    (hsnd : soundById h i = some s) :
    ∃ s', soundById (stopOne h i internal).1 i = some s' ∧
      s'._paused = true ∧ s'._ended = true ∧ s'._seek = s._start := by
  have hsnd1 : soundById (clearTimer h i) i = some s := hsnd
  have hfind : h._sounds.find? (fun x => x._id = i) = some s := hsnd
  obtain ⟨g, hg, hgp⟩ := stopFade_sounds
    ({ clearTimer h i with _sounds := updateSound (clearTimer h i)._sounds i stopUpd }) i
  have hmid : (updateSound (clearTimer h i)._sounds i stopUpd).find?
      (fun x => x._id = i) = some (stopUpd s) :=
    find?_of_updateSound i stopUpd s (fun x => rfl) _ hfind
  have hafter : soundById (stopFade ({ clearTimer h i with
      _sounds := updateSound (clearTimer h i)._sounds i stopUpd } : Howl) i).1 i =
      some (g (stopUpd s)) := by
    show ((stopFade _ i).1)._sounds.find? _ = _
    rw [hg]
    exact find?_of_updateSound i g _ (fun x => (hgp x).1) _ hmid
  unfold stopOne
  dsimp only
  rw [hsnd1]
  dsimp only
  by_cases hw : (clearTimer h i)._webAudio = true
  · rw [if_pos hw]
    by_cases hb : s._hasBufferSource = true
    · rw [if_pos hb]
      refine ⟨dropBufUpd (g (stopUpd s)), ?_, (hgp _).2.1, (hgp _).2.2.1, (hgp _).2.2.2⟩
      show (Howl._sounds _).find? _ = _
      rw [emit_if_sounds]
      exact find?_of_updateSound i dropBufUpd _ (fun x => rfl) _ hafter
    · rw [if_neg hb]
      refine ⟨g (stopUpd s), ?_, (hgp _).2.1, (hgp _).2.2.1, (hgp _).2.2.2⟩
      show (Howl._sounds _).find? _ = _
      rw [emit_if_sounds]
      exact hafter
  · rw [if_neg hw]
    refine ⟨rewindNodeUpd (g (stopUpd s)), ?_, (hgp _).2.1, (hgp _).2.2.1, (hgp _).2.2.2⟩
    show (Howl._sounds _).find? _ = _
    rw [emit_if_sounds]
    exact find?_of_updateSound i rewindNodeUpd _ (fun x => rfl) _ hafter

/-- One iteration of the `pause` loop on an existing, currently playing
voice: the voice is found again afterwards, now paused, with the computed
playback position stored as its seek and its ended flag unchanged. -/
theorem pauseOne_marks (h : Howl) (i : Nat) (internal : Bool) (now : Rat) (s : Sound)
    (hsnd : soundById h i = some s) (hp : s._paused = false) :
    ∃ s', soundById (pauseOne h i internal now).1 i = some s' ∧
      s'._paused = true ∧ s'._ended = s._ended ∧
      s'._seek = seekReadValue h s now := by
  have hsnd1 : soundById (clearTimer h i) i = some s := hsnd
  have hfind : h._sounds.find? (fun x => x._id = i) = some s := hsnd
  have hnp : (!s._paused) = true := by rw [hp]; rfl
  obtain ⟨g, hg, hgp⟩ := stopFade_sounds
    ({ clearTimer h i with
        _sounds :=
          updateSound (clearTimer h i)._sounds i
            (pauseUpd (seekReadValue (clearTimer h i) s now)) }) i
  have hmid : (updateSound (clearTimer h i)._sounds i
      (pauseUpd (seekReadValue (clearTimer h i) s now))).find?
      (fun x => x._id = i) =
      some (pauseUpd (seekReadValue (clearTimer h i) s now) s) :=
    find?_of_updateSound i (pauseUpd (seekReadValue (clearTimer h i) s now)) s
      (fun x => rfl) _ hfind
  have hafter : soundById (stopFade ({ clearTimer h i with
      _sounds :=
        updateSound (clearTimer h i)._sounds i
          (pauseUpd (seekReadValue (clearTimer h i) s now)) } : Howl) i).1 i =
      some (g (pauseUpd (seekReadValue (clearTimer h i) s now) s)) := by
    show ((stopFade _ i).1)._sounds.find? _ = _
    rw [hg]
    exact find?_of_updateSound i g _ (fun x => (hgp x).1) _ hmid
  unfold pauseOne
  dsimp only
  rw [hsnd1]
  dsimp only
  rw [if_pos hnp]
  by_cases hw : (clearTimer h i)._webAudio = true
  · rw [if_pos hw]
    by_cases hb : s._hasBufferSource = true
    · rw [if_pos hb]
      refine ⟨dropBufUpd (g (pauseUpd (seekReadValue (clearTimer h i) s now) s)),
        ?_, (hgp _).2.1, (hgp _).2.2.1, (hgp _).2.2.2⟩
      show (Howl._sounds _).find? _ = _
      rw [emit_if_sounds]
      exact find?_of_updateSound i dropBufUpd _ (fun x => rfl) _ hafter
    · rw [if_neg hb]
      exact ⟨g (pauseUpd (seekReadValue (clearTimer h i) s now) s),
        hafter, (hgp _).2.1, (hgp _).2.2.1, (hgp _).2.2.2⟩
  · rw [if_neg hw]
    refine ⟨g (pauseUpd (seekReadValue (clearTimer h i) s now) s),
      ?_, (hgp _).2.1, (hgp _).2.2.1, (hgp _).2.2.2⟩
    show (Howl._sounds _).find? _ = _
    rw [emit_if_sounds]
    exact hafter

/-- `Howl.stop` on a loaded, unlocked group and an existing voice id: the
voice ends up paused, ended and rewound to its recorded sprite start. -/
theorem stop_marks (h : Howl) (i : Nat) (internal : Bool) (s : Sound)
    (hst : h._state = LOADED) (hlock : h._playLock = false)
    (hsnd : soundById h i = some s) :
    ∃ s', soundById (stop h (some i) internal).1 i = some s' ∧
      s'._paused = true ∧ s'._ended = true ∧ s'._seek = s._start := by
  have hcond : ¬(h._state ≠ LOADED ∨ h._playLock = true) := by
    simp [hst, hlock]
  unfold stop
  rw [if_neg hcond]
  obtain ⟨s', h1, h2, h3, h4⟩ := stopOne_marks h i internal s hsnd
  exact ⟨s', h1, h2, h3, h4⟩

/-- `Howl.pause` on a loaded, unlocked group and an existing, currently
playing voice id: the voice ends up paused with the computed position stored
as its seek, its ended flag untouched. -/
theorem pause_marks (h : Howl) (i : Nat) (internal : Bool) (now : Rat) (s : Sound)
    (hst : h._state = LOADED) (hlock : h._playLock = false)
    (hsnd : soundById h i = some s) (hp : s._paused = false) :
    ∃ s', soundById (pause h (some i) internal now).1 i = some s' ∧
      s'._paused = true ∧ s'._ended = s._ended ∧
      s'._seek = seekReadValue h s now := by
  have hcond : ¬(h._state ≠ LOADED ∨ h._playLock = true) := by
    simp [hst, hlock]
  unfold pause
  rw [if_neg hcond]
  obtain ⟨s', h1, h2, h3, h4⟩ := pauseOne_marks h i internal now s hsnd hp
  exact ⟨s', h1, h2, h3, h4⟩

theorem play_stop_play_scenario (off dur : Rat) (lp : Bool) (rate t : Rat)
    (hoff : 0 ≤ off) (hdur : 0 < dur) (hr : rate ≠ 0) :
    (playStopPlay off dur lp rate t)._sounds.map (fun x => (x._paused, x._seek)) =
      [(false, off / 1000)] := by
  have hA : ¬((0:Rat) > 0) := lt_irrefl 0
  have hdiv : (0:Rat) ≤ off / 1000 := by positivity
  have hmax : max (0:Rat) (off / 1000) = off / 1000 := max_eq_right hdiv
  have hlt : ¬(max (0:Rat) (if (0:Rat) > 0 then (0:Rat) else off / 1000) ≥
      (off + dur) / 1000) := by
    rw [if_neg hA, hmax]
    intro hcon
    have h2 : (off + dur) / 1000 ≤ off / 1000 := hcon
    linarith
  have e1 := play_alloc_eq (groupC6 off dur lp rate) (hsC6 t)
    (⟨2001, true, true, DEFAULT, 0, 0, 0, 0, 0, false, false, 1, rate, false, none, 0, false⟩ : Sound) rfl rfl
  have e2 := playWithSound_alloc_eq
    (inactiveSound (groupC6 off dur lp rate) (hsC6 t).counter).1
    { hsC6 t with counter := (inactiveSound (groupC6 off dur lp rate) (hsC6 t).counter).2.1 }
    (⟨2001, true, true, DEFAULT, 0, 0, 0, 0, 0, false, false, 1, rate, false, none, 0, false⟩ : Sound) DEFAULT ⟨off, dur, lp⟩ rfl rfl
  have e3 := playLoaded_webaudio_start_eq
    (inactiveSound (groupC6 off dur lp rate) (hsC6 t).counter).1
    { hsC6 t with counter := (inactiveSound (groupC6 off dur lp rate) (hsC6 t).counter).2.1 }
    (⟨2001, true, true, DEFAULT, 0, 0, 0, 0, 0, false, false, 1, rate, false, none, 0, false⟩ : Sound) DEFAULT ⟨off, dur, lp⟩ false
    rfl rfl hr hlt
  have E1h : (play (groupC6 off dur lp rate) (hsC6 t) .noArg false).howl =
      groupAfterPlay1 off dur lp rate t := by
    rw [e1, e2, e3]; rfl
  have E1s : (play (groupC6 off dur lp rate) (hsC6 t) .noArg false).hs =
      (⟨2001, t, true, true, true⟩ : HowlerState) := by
    rw [e1, e2, e3]; rfl
  have E2h : (stop (groupAfterPlay1 off dur lp rate t) none false).1 =
      groupStopped off dur lp rate t := rfl
  have e1x := play_alloc_eq (groupStopped off dur lp rate t)
    (⟨2001, t, true, true, true⟩ : HowlerState) (sReset2 off dur lp rate t) rfl rfl
  have e2x := playWithSound_alloc_eq
    (inactiveSound (groupStopped off dur lp rate t) 2001).1
    { (⟨2001, t, true, true, true⟩ : HowlerState) with
        counter := (inactiveSound (groupStopped off dur lp rate t) 2001).2.1 }
    (sReset2 off dur lp rate t) DEFAULT ⟨off, dur, lp⟩ rfl rfl
  have e3x := playLoaded_webaudio_start_eq
    (inactiveSound (groupStopped off dur lp rate t) 2001).1
    { (⟨2001, t, true, true, true⟩ : HowlerState) with
        counter := (inactiveSound (groupStopped off dur lp rate t) 2001).2.1 }
    (sReset2 off dur lp rate t) DEFAULT ⟨off, dur, lp⟩ false rfl rfl hr hlt
  show ((play (stop (play (groupC6 off dur lp rate) (hsC6 t) .noArg false).howl
      none false).1 (play (groupC6 off dur lp rate) (hsC6 t) .noArg false).hs
      .noArg false).howl)._sounds.map (fun x => (x._paused, x._seek)) =
    [(false, off / 1000)]
  rw [E1h, E1s, E2h, e1x, e2x, e3x]
  trans ([((false : Bool), max (0:Rat) (off / 1000))])
  · rfl
  · rw [hmax]

/-- C6: on a loaded, unlocked group, `stop(id)` marks the targeted voice
paused and ended and rewinds its stored seek to the recorded sprite start,
while `pause(id)` on a playing voice marks it paused only, storing the
computed current playback position as its seek and leaving the ended flag
unchanged; and for every sprite window with nonnegative offset, positive
duration and nonzero rate, the play-stop-play sequence on a fresh group
leaves the voice with paused = false and seek = spriteStart. -/
theorem C6_stop_pause_and_replay :
    (∀ (h : Howl) (i : Nat) (internal : Bool) (s : Sound),
        h._state = LOADED → h._playLock = false → soundById h i = some s →
        ∃ s', soundById (stop h (some i) internal).1 i = some s' ∧
          s'._paused = true ∧ s'._ended = true ∧ s'._seek = s._start) ∧
    (∀ (h : Howl) (i : Nat) (internal : Bool) (now : Rat) (s : Sound),
        h._state = LOADED → h._playLock = false → soundById h i = some s →
        s._paused = false →
        ∃ s', soundById (pause h (some i) internal now).1 i = some s' ∧
          s'._paused = true ∧ s'._ended = s._ended ∧
          s'._seek = seekReadValue h s now) ∧
    (∀ (off dur : Rat) (lp : Bool) (rate t : Rat),
        0 ≤ off → 0 < dur → rate ≠ 0 →
        (playStopPlay off dur lp rate t)._sounds.map
            (fun x => (x._paused, x._seek)) = [(false, off / 1000)]) :=
  ⟨fun h i internal s hst hlock hsnd => stop_marks h i internal s hst hlock hsnd,
   fun h i internal now s hst hlock hsnd hp =>
     pause_marks h i internal now s hst hlock hsnd hp,
   fun off dur lp rate t hoff hdur hr =>
     play_stop_play_scenario off dur lp rate t hoff hdur hr⟩

/-- Concrete instance of the play-stop-play clause of C6: sprite window
[500ms, 1500ms], no loop, rate 1, clock 0. -/
theorem C6_stop_pause_and_replay_witness :
    (0:Rat) ≤ 500 ∧ (0:Rat) < 1000 ∧ (1:Rat) ≠ 0 ∧
    (playStopPlay 500 1000 false 1 0)._sounds.map
        (fun x => (x._paused, x._seek)) = [(false, 500 / 1000)] :=
  ⟨by norm_num, by norm_num, by norm_num,
   C6_stop_pause_and_replay.2.2 500 1000 false 1 0 (by norm_num) (by norm_num)
     (by norm_num)⟩

end HowlerModel
